import Mathlib

/-!
# Verification of the CGM glycemic metrics engine

Shallow embedding of `scripts/analyze_cgm.py` (class `CGMAnalyzer`).
Glucose values are embedded as rationals (`ℚ`); float arithmetic on finite
values is modelled exactly, and a float division whose denominator is zero
(which in numpy yields a non-finite `nan`/`inf` rather than raising) is
modelled as `none`.  `np.std` involves a square root and is therefore
modelled in `ℝ`.
-/

/-- A timestamp, as far as the engine observes it: a calendar-date index,
the hour of day (`dt.hour`) and the minute (`dt.minute`). -/
structure Timestamp where
  date : ℕ
  hour : ℕ
  minute : ℕ
deriving DecidableEq, Repr

/-- One glucose reading: timestamp plus value in mg/dL. -/
structure Reading where
  ts : Timestamp
  value : ℚ
deriving DecidableEq, Repr

/-- The configured target range `(low, high)` passed to `calculate_metrics`. -/
structure TargetRange where
  low : ℚ
  high : ℚ
deriving DecidableEq, Repr

/-- Float division.  numpy division by zero produces a non-finite value
(`nan` or `inf`) instead of raising; that outcome is modelled as `none`. -/
def fdiv (a b : ℚ) : Option ℚ :=
  if b = 0 then none else some (a / b)

/-- `np.mean`: sum divided by length; `nan` (`none`) on the empty array. -/
def npMean (xs : List ℚ) : Option ℚ :=
  fdiv xs.sum xs.length

/-- Total-function mean used inside `np.std` (`xs` is nonempty wherever the
value matters; for the empty list the scan below never consults it). -/
def npMeanQ (xs : List ℚ) : ℚ :=
  xs.sum / xs.length

/-- Population variance, the radicand of `np.std`. -/
def npVarQ (xs : List ℚ) : ℚ :=
  ((xs.map fun x => (x - npMeanQ xs) ^ 2).sum) / xs.length

/-- `np.std`: square root of the population variance (hence a real). -/
noncomputable def npStdR (xs : List ℚ) : ℝ :=
  Real.sqrt (npVarQ xs)

/-- Insert into a `≤`-sorted list (ascending), modelling numpy's internal
ascending sort. -/
def insertLe {α} [LE α] [DecidableRel (α := α) (· ≤ ·)] (x : α) : List α → List α
  | [] => [x]
  | y :: ys => if x ≤ y then x :: y :: ys else y :: insertLe x ys

/-- Ascending insertion sort (models `np.sort`). -/
def sortLe {α} [LE α] [DecidableRel (α := α) (· ≤ ·)] : List α → List α
  | [] => []
  | x :: xs => insertLe x (sortLe xs)

/-- `np.median`: middle element of the sorted data (average of the two middle
elements for even length); `nan` (`none`) on the empty array. -/
def npMedian (xs : List ℚ) : Option ℚ :=
  if xs = [] then none
  else
    let s := sortLe xs
    let n := s.length
    if n % 2 = 1 then some (s.getD (n / 2) 0)
    else some ((s.getD (n / 2 - 1) 0 + s.getD (n / 2) 0) / 2)

/-- `np.percentile` with the default linear-interpolation method, on a
nonempty list: index `q/100 * (n-1)` into the sorted data, interpolating
between the two neighbouring order statistics. -/
def npPercentile (xs : List ℚ) (q : ℚ) : ℚ :=
  let s := sortLe xs
  let pos := q / 100 * ((s.length : ℚ) - 1)
  let i := (Int.floor pos).toNat
  let frac := pos - (i : ℚ)
  s.getD i 0 + frac * (s.getD (i + 1) 0 - s.getD i 0)

/-- `(np.sum(cond) / total_readings) * 100`: a band percentage.  For
`total = 0` the float quotient is `nan`, modelled `none`. -/
def pct (count total : ℕ) : Option ℚ :=
  (fdiv (count : ℚ) (total : ℚ)).map (· * 100)

/-- TIR: share of readings with `low_limit <= value <= high_limit`
(configured bounds). -/
def tirPct (vs : List ℚ) (low high : ℚ) : Option ℚ :=
  pct (vs.countP fun v => decide (low ≤ v ∧ v ≤ high)) vs.length

/-- TAR: share of readings with `value > high_limit` (configured bound). -/
def tarPct (vs : List ℚ) (high : ℚ) : Option ℚ :=
  pct (vs.countP fun v => decide (high < v)) vs.length

/-- TBR: share of readings with `value < low_limit` (configured bound). -/
def tbrPct (vs : List ℚ) (low : ℚ) : Option ℚ :=
  pct (vs.countP fun v => decide (v < low)) vs.length

/-- Very Low (<54): fixed clinical threshold 54. -/
def veryLowPct (vs : List ℚ) : Option ℚ :=
  pct (vs.countP fun v => decide (v < 54)) vs.length

/-- Low (54-69): fixed clinical thresholds 54 and 70. -/
def lowBandPct (vs : List ℚ) : Option ℚ :=
  pct (vs.countP fun v => decide (54 ≤ v ∧ v < 70)) vs.length

/-- High (181-250): fixed clinical thresholds 180 and 250. -/
def highBandPct (vs : List ℚ) : Option ℚ :=
  pct (vs.countP fun v => decide (180 < v ∧ v ≤ 250)) vs.length

/-- Very High (>250): fixed clinical threshold 250. -/
def veryHighPct (vs : List ℚ) : Option ℚ :=
  pct (vs.countP fun v => decide (250 < v)) vs.length

/-- `metrics['GMI'] = 3.31 + 0.02392 * metrics['Mean Glucose']`. -/
def gmiFromMean (meanGlucose : ℚ) : ℚ :=
  3.31 + 0.02392 * meanGlucose

/-- `_calculate_gri`: `3.0*v_low + 2.4*low + 1.6*v_high + 0.8*high`. -/
def calculate_gri (v_low low high v_high : ℚ) : ℚ :=
  3.0 * v_low + 2.4 * low + 1.6 * v_high + 0.8 * high

/-- GRI wired to the detailed band percentages of the same value list
(`nan` propagates when the bands are `nan`, i.e. on empty input). -/
def griOf (vs : List ℚ) : Option ℚ := do
  let vl ← veryLowPct vs
  let lo ← lowBandPct vs
  let hi ← highBandPct vs
  let vh ← veryHighPct vs
  pure (calculate_gri vl lo hi vh)

/-- `metrics['CV'] = (SD / Mean) * 100`.  On empty input SD and the mean are
`nan`; when the mean is zero the float quotient is non-finite.  Both
non-finite outcomes are modelled as `none`. -/
noncomputable def cvOf (xs : List ℚ) : Option ℝ :=
  if xs = [] then none
  else if npMeanQ xs = 0 then none
  else some (npStdR xs / (npMeanQ xs : ℝ) * 100)

/-- `metrics['SD'] = np.std(...)`: `nan` (`none`) on the empty array. -/
noncomputable def sdOf (xs : List ℚ) : Option ℝ :=
  if xs = [] then none else some (npStdR xs)

/-- State of the `_calculate_mage` scan: current direction
(0 undetermined, 1 rising, -1 falling), pending excursion start index, and
the amplitudes recorded so far. -/
structure MageState where
  direction : ℤ
  excursionStart : ℕ
  excursions : List ℚ
deriving Repr

open Classical

/-- One iteration of the `_calculate_mage` loop at index `i`
(`diff = glucose[i] - glucose[i-1]`, compared against the population SD). -/
noncomputable def mageStep (glucose : List ℚ) (sd : ℝ) (s : MageState) (i : ℕ) :
    MageState :=
  let diff : ℚ := glucose.getD i 0 - glucose.getD (i - 1) 0
  if ((|diff| : ℚ) : ℝ) > sd then
    if s.direction = 0 then
      { s with direction := if diff > 0 then 1 else -1, excursionStart := i - 1 }
    else if (s.direction = 1 ∧ diff < 0) ∨ (s.direction = -1 ∧ diff > 0) then
      let amplitude : ℚ := |glucose.getD (i - 1) 0 - glucose.getD s.excursionStart 0|
      { direction := if diff > 0 then 1 else -1
        excursionStart := i - 1
        excursions :=
          if ((|amplitude| : ℚ) : ℝ) > sd then s.excursions ++ [amplitude]
          else s.excursions }
    else s
  else s

/-- The excursion amplitudes accumulated by the scan of `_calculate_mage`
(the `for i in range(1, len(glucose))` loop). -/
noncomputable def mageScan (glucose : List ℚ) (sd : ℝ) : List ℚ :=
  ((List.range' 1 (glucose.length - 1)).foldl (mageStep glucose sd)
    ⟨0, 0, []⟩).excursions

/-- `_calculate_mage`: mean of the recorded excursion amplitudes, `0` when
none were recorded. -/
noncomputable def calculate_mage (glucose : List ℚ) : ℚ :=
  let exc := mageScan glucose (npStdR glucose)
  if exc = [] then 0 else exc.sum / exc.length

/-- `_calculate_daily_patterns`: hourly pattern — mean glucose grouped by
`dt.hour` (pandas `groupby` emits only observed keys, in ascending order). -/
def hourlyPattern (rs : List Reading) : List (ℕ × ℚ) :=
  ((rs.map fun r => r.ts.hour).dedup |> sortLe).map fun h =>
    let vs := (rs.filter fun r => decide (r.ts.hour = h)).map fun r => r.value
    (h, vs.sum / (vs.length : ℚ))

/-- Fractional hour of day used by `create_agp`:
`dt.hour + dt.minute / 60`. -/
def fracHour (t : Timestamp) : ℚ :=
  (t.hour : ℚ) + (t.minute : ℚ) / 60

/-- The `hourly_percentiles` mapping built by `create_agp`: for each hour
bucket `[h, h+1)` over fractional hour of day with at least one reading, the
10/25/50/75/90 percentiles of the bucket's glucose values.  (The chart
rendering around this mapping is out of scope.) -/
def create_agp (rs : List Reading) : List (ℕ × List ℚ) :=
  (List.range 24).filterMap fun (h : ℕ) =>
    let hourData :=
      (rs.filter fun r =>
        decide ((h : ℚ) ≤ fracHour r.ts ∧ fracHour r.ts < (h : ℚ) + 1)).map
        fun r => r.value
    if hourData.length > 0 then
      some (h, [10, 25, 50, 75, 90].map fun q => npPercentile hourData q)
    else none

/-- The `metrics` record assembled by `calculate_metrics` (fields that are
`nan` floats on degenerate input are `Option`-valued). -/
structure MetricsSnapshot where
  meanGlucose : Option ℚ
  medianGlucose : Option ℚ
  sd : Option ℝ
  cv : Option ℝ
  tir : Option ℚ
  tar : Option ℚ
  tbr : Option ℚ
  veryLow : Option ℚ
  lowBand : Option ℚ
  highBand : Option ℚ
  veryHigh : Option ℚ
  gmi : Option ℚ
  gri : Option ℚ
  mage : ℚ
  hourly : List (ℕ × ℚ)

/-- `CGMAnalyzer.calculate_metrics`: a total function of the reading list and
the target range — the source performs no input validation and raises no
typed error; degenerate inputs flow through numpy as `nan` (`none`). -/
noncomputable def calculate_metrics (rs : List Reading) (tr : TargetRange) :
    MetricsSnapshot :=
  let vs := rs.map fun r => r.value
  { meanGlucose := npMean vs
    medianGlucose := npMedian vs
    sd := sdOf vs
    cv := cvOf vs
    tir := tirPct vs tr.low tr.high
    tar := tarPct vs tr.high
    tbr := tbrPct vs tr.low
    veryLow := veryLowPct vs
    lowBand := lowBandPct vs
    highBand := highBandPct vs
    veryHigh := veryHighPct vs
    gmi := (npMean vs).map gmiFromMean
    gri := griOf vs
    mage := calculate_mage vs
    hourly := hourlyPattern rs }

/-- The alternating scenario input of the spec: values 40, 250 repeated,
10 readings. -/
def alt10 : List ℚ := [40, 250, 40, 250, 40, 250, 40, 250, 40, 250]

/-- The alternating scenario as full readings (5-minute spacing). -/
def altReadings : List Reading :=
  [⟨⟨0, 0, 0⟩, 40⟩, ⟨⟨0, 0, 5⟩, 250⟩, ⟨⟨0, 0, 10⟩, 40⟩, ⟨⟨0, 0, 15⟩, 250⟩,
   ⟨⟨0, 0, 20⟩, 40⟩, ⟨⟨0, 0, 25⟩, 250⟩, ⟨⟨0, 0, 30⟩, 40⟩, ⟨⟨0, 0, 35⟩, 250⟩,
   ⟨⟨0, 0, 40⟩, 40⟩, ⟨⟨0, 0, 45⟩, 250⟩]

/-! ## Helper lemmas -/

/-- A fold whose step fixes every state is the identity. -/
lemma foldl_id_of_fixed {β : Type} (f : β → ℕ → β) (l : List ℕ)
    (h : ∀ b i, i ∈ l → f b i = b) : ∀ s : β, l.foldl f s = s := by
  induction l with
  | nil => intro s; rfl
  | cons i t ih =>
    intro s
    rw [List.foldl_cons, h s i (List.mem_cons_self i t)]
    exact ih (fun b j hj => h b j (List.mem_cons_of_mem i hj)) s

/-- On a list whose elements are all equal, every scan step is the identity:
the delta is `0` and can never exceed the (nonnegative) threshold. -/
lemma mageStep_allEq (g : List ℚ) (hconst : ∀ x ∈ g, ∀ y ∈ g, x = y)
    (sd : ℝ) (hsd : 0 ≤ sd) (s : MageState) (i : ℕ) (h2 : i < g.length) :
    mageStep g sd s i = s := by
  rw [mageStep]
  have hm1 : g.getD i 0 ∈ g := by
    rw [List.getD_eq_getElem _ _ h2]; exact List.getElem_mem h2
  have hm2 : g.getD (i - 1) 0 ∈ g := by
    rw [List.getD_eq_getElem _ _ (by omega : i - 1 < g.length)]
    exact List.getElem_mem (by omega)
  rw [hconst _ hm1 _ hm2, sub_self, abs_zero]
  rw [if_neg (by push_cast; linarith)]

/-- MAGE of a constant-valued sequence is `0`. -/
lemma mage_allEq (g : List ℚ) (hconst : ∀ x ∈ g, ∀ y ∈ g, x = y) :
    calculate_mage g = 0 := by
  rw [calculate_mage, mageScan]
  rw [foldl_id_of_fixed _ _ (fun b i hi => by
    have h := List.mem_range'_1.mp hi
    exact mageStep_allEq g hconst _ (Real.sqrt_nonneg _) b i (by omega))]
  rfl

/-- MAGE of a sequence of fewer than 2 readings is `0` (the scan has no
iterations). -/
lemma mage_short (g : List ℚ) (h : g.length < 2) : calculate_mage g = 0 := by
  rw [calculate_mage, mageScan]
  have : g.length - 1 = 0 := by omega
  rw [this]
  rfl

/-- On a strictly monotone list the scan step never records an excursion and
keeps the direction in the set of the initial direction `0` and the monotone
sign. -/
lemma mageStep_mono (g : List ℚ) (sd : ℝ) (σ : ℤ) (hσ : σ = 1 ∨ σ = -1)
    (s : MageState) (i : ℕ)
    (hdiff : 0 < (σ : ℚ) * (g.getD i 0 - g.getD (i - 1) 0))
    (hs : s.direction = 0 ∨ s.direction = σ) :
    (mageStep g sd s i).excursions = s.excursions ∧
      ((mageStep g sd s i).direction = 0 ∨ (mageStep g sd s i).direction = σ) := by
  rw [mageStep]
  set diff : ℚ := g.getD i 0 - g.getD (i - 1) 0 with hdiffdef
  by_cases hc : ((|diff| : ℚ) : ℝ) > sd
  · rw [if_pos hc]
    rcases hs with hs | hs
    · rw [if_pos hs]
      refine ⟨rfl, Or.inr ?_⟩
      rcases hσ with hσ | hσ
      · subst hσ
        have : diff > 0 := by push_cast at hdiff; linarith
        simp [this]
      · subst hσ
        have hneg : diff < 0 := by push_cast at hdiff; linarith
        have : ¬ diff > 0 := by linarith
        simp [this]
    · rw [if_neg (by omega : ¬ s.direction = 0)]
      rcases hσ with hσ | hσ
      · subst hσ
        have hpos : diff > 0 := by push_cast at hdiff; linarith
        rw [if_neg ?_]
        · exact ⟨rfl, Or.inr hs⟩
        · rintro (⟨-, hlt⟩ | ⟨hd, -⟩)
          · linarith
          · rw [hs] at hd; exact absurd hd (by decide)
      · subst hσ
        have hneg : diff < 0 := by push_cast at hdiff; linarith
        rw [if_neg ?_]
        · exact ⟨rfl, Or.inr hs⟩
        · rintro (⟨hd, -⟩ | ⟨-, hgt⟩)
          · rw [hs] at hd; exact absurd hd (by decide)
          · linarith
  · rw [if_neg hc]
    exact ⟨rfl, hs⟩

/-- Folding the scan step over indices of a strictly monotone list leaves
the recorded excursions unchanged. -/
lemma mageScan_mono_aux (g : List ℚ) (sd : ℝ) (σ : ℤ) (hσ : σ = 1 ∨ σ = -1)
    (hdiff : ∀ i, 1 ≤ i → i < g.length →
      0 < (σ : ℚ) * (g.getD i 0 - g.getD (i - 1) 0)) :
    ∀ (l : List ℕ), (∀ i ∈ l, 1 ≤ i ∧ i < g.length) →
      ∀ s : MageState, (s.direction = 0 ∨ s.direction = σ) →
        (l.foldl (mageStep g sd) s).excursions = s.excursions ∧
          ((l.foldl (mageStep g sd) s).direction = 0 ∨
            (l.foldl (mageStep g sd) s).direction = σ) := by
  intro l
  induction l with
  | nil => intro _ s hs; exact ⟨rfl, hs⟩
  | cons i t ih =>
    intro hmem s hs
    have hi := hmem i (List.mem_cons_self i t)
    have hstep := mageStep_mono g sd σ hσ s i (hdiff i hi.1 hi.2) hs
    rw [List.foldl_cons]
    have hrest := ih (fun j hj => hmem j (List.mem_cons_of_mem i hj))
      (mageStep g sd s i) hstep.2
    exact ⟨hrest.1.trans hstep.1, hrest.2⟩

/-- The three configured-range predicates partition any value when
`low <= high`. -/
lemma countP_three (vs : List ℚ) {low high : ℚ} (h : low ≤ high) :
    vs.countP (fun v => decide (v < low)) +
      vs.countP (fun v => decide (low ≤ v ∧ v ≤ high)) +
      vs.countP (fun v => decide (high < v)) = vs.length := by
  induction vs with
  | nil => simp
  | cons x xs ih =>
    simp only [List.countP_cons, List.length_cons, decide_eq_true_eq]
    rcases lt_or_le x low with hx | hx
    · rw [if_pos hx, if_neg (fun hc => absurd hx (not_lt.mpr hc.1)),
        if_neg (not_lt.mpr (hx.le.trans h))]
      omega
    · rcases le_or_lt x high with hxh | hxh
      · rw [if_neg (not_lt.mpr hx), if_pos ⟨hx, hxh⟩, if_neg (not_lt.mpr hxh)]
        omega
      · rw [if_neg (not_lt.mpr hx), if_neg (fun hc => absurd hxh (not_lt.mpr hc.2)),
          if_pos hxh]
        omega

/-- With the default target range, the five detailed bands are mutually
exclusive and exhaustive at every value. -/
lemma band_five_exclusive (x : ℚ) :
    (if x < 54 then (1:ℕ) else 0) + (if 54 ≤ x ∧ x < 70 then 1 else 0) +
      (if (70:ℚ) ≤ x ∧ x ≤ 180 then 1 else 0) +
      (if (180:ℚ) < x ∧ x ≤ 250 then 1 else 0) +
      (if (250:ℚ) < x then 1 else 0) = 1 := by
  rcases lt_or_le x 54 with h54 | h54
  · rw [if_pos h54, if_neg (fun hc => absurd h54 (not_lt.mpr hc.1)),
      if_neg (fun hc => by linarith [hc.1]), if_neg (fun hc => by linarith [hc.1]),
      if_neg (by push_neg; linarith)]
  · rcases lt_or_le x 70 with h70 | h70
    · rw [if_neg (not_lt.mpr h54), if_pos ⟨h54, h70⟩,
        if_neg (fun hc => by linarith [hc.1]), if_neg (fun hc => by linarith [hc.1]),
        if_neg (by push_neg; linarith)]
    · rcases le_or_lt x 180 with h180 | h180
      · rw [if_neg (by push_neg; linarith), if_neg (fun hc => by linarith [hc.2]),
          if_pos ⟨h70, h180⟩, if_neg (fun hc => by linarith [hc.1]),
          if_neg (by push_neg; linarith)]
      · rcases le_or_lt x 250 with h250 | h250
        · rw [if_neg (by push_neg; linarith), if_neg (fun hc => by linarith [hc.2]),
            if_neg (fun hc => by linarith [hc.2]), if_pos ⟨h180, h250⟩,
            if_neg (by push_neg; linarith)]
        · rw [if_neg (by push_neg; linarith), if_neg (fun hc => by linarith [hc.2]),
            if_neg (fun hc => by linarith [hc.2]), if_neg (fun hc => by linarith [hc.2]),
            if_pos h250]

/-- The five fixed-threshold band counts (with the default range as the
middle band) sum to the sequence length. -/
lemma countP_five (vs : List ℚ) :
    vs.countP (fun v => decide (v < 54)) +
      vs.countP (fun v => decide (54 ≤ v ∧ v < 70)) +
      vs.countP (fun v => decide ((70:ℚ) ≤ v ∧ v ≤ 180)) +
      vs.countP (fun v => decide ((180:ℚ) < v ∧ v ≤ 250)) +
      vs.countP (fun v => decide ((250:ℚ) < v)) = vs.length := by
  induction vs with
  | nil => simp
  | cons x xs ih =>
    simp only [List.countP_cons, List.length_cons, decide_eq_true_eq]
    have h := band_five_exclusive x
    omega

/-- `pct` on a nonzero total is defined float division. -/
lemma pct_of_ne_zero (count total : ℕ) (h : total ≠ 0) :
    pct count total = some ((count : ℚ) / (total : ℚ) * 100) := by
  simp [pct, fdiv, h]

lemma pct_sum_three (c1 c2 c3 n : ℕ) (hn : n ≠ 0) (hsum : c1 + c2 + c3 = n) :
    (c1 : ℚ) / n * 100 + (c2 : ℚ) / n * 100 + (c3 : ℚ) / n * 100 = 100 := by
  have hn' : (n : ℚ) ≠ 0 := Nat.cast_ne_zero.mpr hn
  have : (c1 : ℚ) + c2 + c3 = n := by exact_mod_cast congrArg (Nat.cast : ℕ → ℚ) hsum
  field_simp
  linarith

lemma pct_sum_five (c1 c2 c3 c4 c5 n : ℕ) (hn : n ≠ 0)
    (hsum : c1 + c2 + c3 + c4 + c5 = n) :
    (c1 : ℚ) / n * 100 + (c2 : ℚ) / n * 100 + (c3 : ℚ) / n * 100 +
      (c4 : ℚ) / n * 100 + (c5 : ℚ) / n * 100 = 100 := by
  have hn' : (n : ℚ) ≠ 0 := Nat.cast_ne_zero.mpr hn
  have : (c1 : ℚ) + c2 + c3 + c4 + c5 = n := by
    exact_mod_cast congrArg (Nat.cast : ℕ → ℚ) hsum
  field_simp
  linarith

/-! ## Claim C1 -/

/-- Claim C1 (amended): for every non-empty reading sequence and every
configured range with `low < high`, the aggregate percentages satisfy
`TBR + TIR + TAR = 100`; the five detailed band percentages
(`very_low + low + in_range + high + very_high`) sum to `100` when the
configured range is the default `(70, 180)` (the middle band of the
five-band partition is TIR, computed from the configured bounds, while the
other four use the fixed clinical thresholds, so the identity is specific to
the default range). -/
theorem band_percentages_sum (rs : List Reading) (tr : TargetRange)
    (hne : rs ≠ []) (hlt : tr.low < tr.high) :
    (∃ b i a : ℚ, (calculate_metrics rs tr).tbr = some b ∧
        (calculate_metrics rs tr).tir = some i ∧
        (calculate_metrics rs tr).tar = some a ∧ b + i + a = 100) ∧
    (tr = ⟨70, 180⟩ →
      ∃ v1 v2 v3 v4 v5 : ℚ, (calculate_metrics rs tr).veryLow = some v1 ∧
        (calculate_metrics rs tr).lowBand = some v2 ∧
        (calculate_metrics rs tr).tir = some v3 ∧
        (calculate_metrics rs tr).highBand = some v4 ∧
        (calculate_metrics rs tr).veryHigh = some v5 ∧
        v1 + v2 + v3 + v4 + v5 = 100) := by
  have hlen : (rs.map fun r => r.value).length ≠ 0 := by
    simpa using fun hc => hne (List.eq_nil_of_length_eq_zero (by simpa using hc))
  set vs := rs.map fun r => r.value with hvs
  have htbr : (calculate_metrics rs tr).tbr =
      some (((vs.countP fun v => decide (v < tr.low)) : ℚ) / (vs.length : ℚ) * 100) := by
    show tbrPct vs tr.low = _
    rw [tbrPct, pct_of_ne_zero _ _ hlen]
  have htir : (calculate_metrics rs tr).tir =
      some (((vs.countP fun v => decide (tr.low ≤ v ∧ v ≤ tr.high)) : ℚ) /
        (vs.length : ℚ) * 100) := by
    show tirPct vs tr.low tr.high = _
    rw [tirPct, pct_of_ne_zero _ _ hlen]
  have htar : (calculate_metrics rs tr).tar =
      some (((vs.countP fun v => decide (tr.high < v)) : ℚ) / (vs.length : ℚ) * 100) := by
    show tarPct vs tr.high = _
    rw [tarPct, pct_of_ne_zero _ _ hlen]
  constructor
  · exact ⟨_, _, _, htbr, htir, htar,
      pct_sum_three _ _ _ _ hlen (countP_three vs hlt.le)⟩
  · rintro rfl
    have h1 : (calculate_metrics rs ⟨70, 180⟩).veryLow =
        some (((vs.countP fun v => decide (v < 54)) : ℚ) / (vs.length : ℚ) * 100) := by
      show veryLowPct vs = _
      rw [veryLowPct, pct_of_ne_zero _ _ hlen]
    have h2 : (calculate_metrics rs ⟨70, 180⟩).lowBand =
        some (((vs.countP fun v => decide (54 ≤ v ∧ v < 70)) : ℚ) /
          (vs.length : ℚ) * 100) := by
      show lowBandPct vs = _
      rw [lowBandPct, pct_of_ne_zero _ _ hlen]
    have h3 : (calculate_metrics rs ⟨70, 180⟩).tir =
        some (((vs.countP fun v => decide ((70:ℚ) ≤ v ∧ v ≤ 180)) : ℚ) /
          (vs.length : ℚ) * 100) := by
      show tirPct vs (70:ℚ) (180:ℚ) = _
      rw [tirPct, pct_of_ne_zero _ _ hlen]
    have h4 : (calculate_metrics rs ⟨70, 180⟩).highBand =
        some (((vs.countP fun v => decide ((180:ℚ) < v ∧ v ≤ 250)) : ℚ) /
          (vs.length : ℚ) * 100) := by
      show highBandPct vs = _
      rw [highBandPct, pct_of_ne_zero _ _ hlen]
    have h5 : (calculate_metrics rs ⟨70, 180⟩).veryHigh =
        some (((vs.countP fun v => decide ((250:ℚ) < v)) : ℚ) / (vs.length : ℚ) * 100) := by
      show veryHighPct vs = _
      rw [veryHighPct, pct_of_ne_zero _ _ hlen]
    exact ⟨_, _, _, _, _, h1, h2, h3, h4, h5,
      pct_sum_five _ _ _ _ _ _ hlen (countP_five vs)⟩

/-- Witness for C1: a single reading 100 with the default range (70, 180)
satisfies both identities. -/
theorem band_percentages_sum_witness :
    (∃ b i a : ℚ,
        (calculate_metrics [⟨⟨0,0,0⟩, 100⟩] ⟨70, 180⟩).tbr = some b ∧
        (calculate_metrics [⟨⟨0,0,0⟩, 100⟩] ⟨70, 180⟩).tir = some i ∧
        (calculate_metrics [⟨⟨0,0,0⟩, 100⟩] ⟨70, 180⟩).tar = some a ∧
        b + i + a = 100) ∧
    ((⟨70, 180⟩ : TargetRange) = ⟨70, 180⟩ →
      ∃ v1 v2 v3 v4 v5 : ℚ,
        (calculate_metrics [⟨⟨0,0,0⟩, 100⟩] ⟨70, 180⟩).veryLow = some v1 ∧
        (calculate_metrics [⟨⟨0,0,0⟩, 100⟩] ⟨70, 180⟩).lowBand = some v2 ∧
        (calculate_metrics [⟨⟨0,0,0⟩, 100⟩] ⟨70, 180⟩).tir = some v3 ∧
        (calculate_metrics [⟨⟨0,0,0⟩, 100⟩] ⟨70, 180⟩).highBand = some v4 ∧
        (calculate_metrics [⟨⟨0,0,0⟩, 100⟩] ⟨70, 180⟩).veryHigh = some v5 ∧
        v1 + v2 + v3 + v4 + v5 = 100) :=
  band_percentages_sum [⟨⟨0,0,0⟩, 100⟩] ⟨70, 180⟩ (by decide) (by decide)

/-- Counterexample for C1 as stated: the single reading 75 with the
configured range (80, 160) — a non-empty sequence with `low < high` — has
all five detailed band percentages equal to 0, so they cannot sum to 100
(75 lies in none of the five bands: it is above 70 but below the configured
low bound 80). -/
theorem band_percentages_sum_cex :
    (([⟨⟨0,0,0⟩, 75⟩] : List Reading) ≠ []) ∧
    ((⟨80, 160⟩ : TargetRange).low < (⟨80, 160⟩ : TargetRange).high) ∧
    (calculate_metrics [⟨⟨0,0,0⟩, 75⟩] ⟨80, 160⟩).veryLow = some 0 ∧
    (calculate_metrics [⟨⟨0,0,0⟩, 75⟩] ⟨80, 160⟩).lowBand = some 0 ∧
    (calculate_metrics [⟨⟨0,0,0⟩, 75⟩] ⟨80, 160⟩).tir = some 0 ∧
    (calculate_metrics [⟨⟨0,0,0⟩, 75⟩] ⟨80, 160⟩).highBand = some 0 ∧
    (calculate_metrics [⟨⟨0,0,0⟩, 75⟩] ⟨80, 160⟩).veryHigh = some 0 ∧
    ¬ (∃ v1 v2 v3 v4 v5 : ℚ,
        (calculate_metrics [⟨⟨0,0,0⟩, 75⟩] ⟨80, 160⟩).veryLow = some v1 ∧
        (calculate_metrics [⟨⟨0,0,0⟩, 75⟩] ⟨80, 160⟩).lowBand = some v2 ∧
        (calculate_metrics [⟨⟨0,0,0⟩, 75⟩] ⟨80, 160⟩).tir = some v3 ∧
        (calculate_metrics [⟨⟨0,0,0⟩, 75⟩] ⟨80, 160⟩).highBand = some v4 ∧
        (calculate_metrics [⟨⟨0,0,0⟩, 75⟩] ⟨80, 160⟩).veryHigh = some v5 ∧
        v1 + v2 + v3 + v4 + v5 = 100) := by
  have e1 : (calculate_metrics [⟨⟨0,0,0⟩, 75⟩] ⟨80, 160⟩).veryLow = some 0 := by
    simp +decide [calculate_metrics, veryLowPct, pct, fdiv, List.countP, List.countP.go]
  have e2 : (calculate_metrics [⟨⟨0,0,0⟩, 75⟩] ⟨80, 160⟩).lowBand = some 0 := by
    simp +decide [calculate_metrics, lowBandPct, pct, fdiv, List.countP, List.countP.go]
  have e3 : (calculate_metrics [⟨⟨0,0,0⟩, 75⟩] ⟨80, 160⟩).tir = some 0 := by
    simp +decide [calculate_metrics, tirPct, pct, fdiv, List.countP, List.countP.go]
  have e4 : (calculate_metrics [⟨⟨0,0,0⟩, 75⟩] ⟨80, 160⟩).highBand = some 0 := by
    simp +decide [calculate_metrics, highBandPct, pct, fdiv, List.countP, List.countP.go]
  have e5 : (calculate_metrics [⟨⟨0,0,0⟩, 75⟩] ⟨80, 160⟩).veryHigh = some 0 := by
    simp +decide [calculate_metrics, veryHighPct, pct, fdiv, List.countP, List.countP.go]
  refine ⟨by decide, by decide, e1, e2, e3, e4, e5, ?_⟩
  rintro ⟨v1, v2, v3, v4, v5, f1, f2, f3, f4, f5, hs⟩
  obtain rfl : (0:ℚ) = v1 := Option.some.inj (e1.symm.trans f1)
  obtain rfl : (0:ℚ) = v2 := Option.some.inj (e2.symm.trans f2)
  obtain rfl : (0:ℚ) = v3 := Option.some.inj (e3.symm.trans f3)
  obtain rfl : (0:ℚ) = v4 := Option.some.inj (e4.symm.trans f4)
  obtain rfl : (0:ℚ) = v5 := Option.some.inj (e5.symm.trans f5)
  norm_num at hs

/-! ## Claim C2 -/

/-- Claim C2 (amended): `calculate_metrics` performs no emptiness check and
raises no typed error.  On zero readings the computation completes and a
full snapshot is returned: every statistical field is numpy `nan`
(modelled `none`), MAGE is `0`, and the hourly map is empty.  No
`EmptyInputError` exists anywhere in the code. -/
theorem empty_input_returns (tr : TargetRange) :
    (calculate_metrics [] tr).meanGlucose = none ∧
    (calculate_metrics [] tr).medianGlucose = none ∧
    (calculate_metrics [] tr).sd = none ∧
    (calculate_metrics [] tr).cv = none ∧
    (calculate_metrics [] tr).tir = none ∧
    (calculate_metrics [] tr).tar = none ∧
    (calculate_metrics [] tr).tbr = none ∧
    (calculate_metrics [] tr).veryLow = none ∧
    (calculate_metrics [] tr).lowBand = none ∧
    (calculate_metrics [] tr).highBand = none ∧
    (calculate_metrics [] tr).veryHigh = none ∧
    (calculate_metrics [] tr).gmi = none ∧
    (calculate_metrics [] tr).gri = none ∧
    (calculate_metrics [] tr).mage = 0 ∧
    (calculate_metrics [] tr).hourly = [] := by
  refine ⟨rfl, rfl, rfl, rfl, rfl, rfl, rfl, rfl, rfl, rfl, rfl, rfl, rfl, ?_, rfl⟩
  show calculate_mage [] = 0
  rfl

/-- Counterexample for C2 as stated: invoked on zero readings with the
default range, `calculate_metrics` does not fail — it returns a snapshot
whose MAGE is the concrete value `0`, whose hourly map is `[]` and whose
mean is `nan` (`none`). -/
theorem empty_input_cex :
    (calculate_metrics [] ⟨70, 180⟩).mage = 0 ∧
    (calculate_metrics [] ⟨70, 180⟩).hourly = [] ∧
    (calculate_metrics [] ⟨70, 180⟩).meanGlucose = none := by
  refine ⟨?_, rfl, rfl⟩
  show calculate_mage [] = 0
  rfl

/-! ## Claim C3 -/

/-- Claim C3: the four detailed sub-band percentages are computed against
the fixed clinical thresholds 54, 70, 180, 250 and do not depend on the
configured target range at all, while TIR/TAR/TBR are computed against the
configured bounds. -/
theorem dual_threshold_bands (rs : List Reading) (tr tr' : TargetRange) :
    ((calculate_metrics rs tr).veryLow = (calculate_metrics rs tr').veryLow ∧
     (calculate_metrics rs tr).lowBand = (calculate_metrics rs tr').lowBand ∧
     (calculate_metrics rs tr).highBand = (calculate_metrics rs tr').highBand ∧
     (calculate_metrics rs tr).veryHigh = (calculate_metrics rs tr').veryHigh) ∧
    ((calculate_metrics rs tr).veryLow =
        pct ((rs.map fun r => r.value).countP fun v => decide (v < 54))
          (rs.map fun r => r.value).length ∧
     (calculate_metrics rs tr).lowBand =
        pct ((rs.map fun r => r.value).countP fun v => decide (54 ≤ v ∧ v < 70))
          (rs.map fun r => r.value).length ∧
     (calculate_metrics rs tr).highBand =
        pct ((rs.map fun r => r.value).countP fun v => decide (180 < v ∧ v ≤ 250))
          (rs.map fun r => r.value).length ∧
     (calculate_metrics rs tr).veryHigh =
        pct ((rs.map fun r => r.value).countP fun v => decide (250 < v))
          (rs.map fun r => r.value).length) ∧
    ((calculate_metrics rs tr).tir =
        pct ((rs.map fun r => r.value).countP fun v =>
          decide (tr.low ≤ v ∧ v ≤ tr.high)) (rs.map fun r => r.value).length ∧
     (calculate_metrics rs tr).tar =
        pct ((rs.map fun r => r.value).countP fun v => decide (tr.high < v))
          (rs.map fun r => r.value).length ∧
     (calculate_metrics rs tr).tbr =
        pct ((rs.map fun r => r.value).countP fun v => decide (v < tr.low))
          (rs.map fun r => r.value).length) :=
  ⟨⟨rfl, rfl, rfl, rfl⟩, ⟨rfl, rfl, rfl, rfl⟩, ⟨rfl, rfl, rfl⟩⟩

/-! ## Claim C4 -/

/-- Claim C4 (amended): `calculate_metrics` never validates the target
range.  With inverted bounds it neither raises an error nor corrects the
bounds: it silently computes a snapshot from the bounds as given.  With
bounds (180, 70) and the single reading 100, TIR is 0% while TAR and TBR
are each 100% (so the aggregate percentages sum to 200). -/
theorem inverted_range_no_error :
    (calculate_metrics [⟨⟨0,0,0⟩, 100⟩] ⟨180, 70⟩).tir = some 0 ∧
    (calculate_metrics [⟨⟨0,0,0⟩, 100⟩] ⟨180, 70⟩).tar = some 100 ∧
    (calculate_metrics [⟨⟨0,0,0⟩, 100⟩] ⟨180, 70⟩).tbr = some 100 := by
  refine ⟨?_, ?_, ?_⟩ <;>
    simp +decide [calculate_metrics, tirPct, tarPct, tbrPct, pct, fdiv,
      List.countP, List.countP.go]

/-- Counterexample for C4 as stated: with inverted bounds (low 180 ≥ high
70) no `InvalidRangeError` is raised — the computation completes and a
metrics snapshot is produced (its mean is the well-defined value 100). -/
theorem inverted_range_cex :
    ((⟨180, 70⟩ : TargetRange).high ≤ (⟨180, 70⟩ : TargetRange).low) ∧
    (calculate_metrics [⟨⟨0,0,0⟩, 100⟩] ⟨180, 70⟩).meanGlucose = some 100 := by
  refine ⟨by decide, ?_⟩
  simp [calculate_metrics, npMean, fdiv]

/-! ## Claim C5 -/

/-- The population variance of the alternating scenario is `105^2`. -/
lemma var_alt : npVarQ alt10 = 11025 := by norm_num [npVarQ, npMeanQ, alt10]

/-- The excursion threshold of the alternating scenario is exactly 105. -/
lemma sd_alt : npStdR alt10 = 105 := by
  rw [npStdR, var_alt, show ((11025:ℚ):ℝ) = (105:ℝ)^2 by norm_num]
  exact Real.sqrt_sq (by norm_num)

/-- Running the scan on the alternating scenario records an amplitude 210 at
each of the 8 direction reversals. -/
lemma scan_alt : mageScan alt10 105 =
    [210, 210, 210, 210, 210, 210, 210, 210] := by
  rw [mageScan]
  norm_num [alt10, List.range', mageStep, List.getD]

/-- MAGE of the alternating scenario is 210. -/
lemma mage_alt_val : calculate_mage alt10 = 210 := by
  rw [calculate_mage, sd_alt, scan_alt]
  norm_num
  simp

/-- Claim C5: on the 10-reading alternating sequence 40, 250, 40, ... the
scan records an excursion of amplitude 210 at each of the 8 alternations
after the first delta (which only fixes the initial direction), and both
the raw detector and the full metrics snapshot report MAGE = 210. -/
theorem mage_alternating_210 :
    mageScan alt10 (npStdR alt10) = List.replicate 8 (210 : ℚ) ∧
    calculate_mage alt10 = 210 ∧
    (calculate_metrics altReadings ⟨70, 180⟩).mage = 210 := by
  refine ⟨?_, mage_alt_val, ?_⟩
  · rw [sd_alt, scan_alt]; rfl
  · show calculate_mage (altReadings.map fun r => r.value) = 210
    exact mage_alt_val

/-! ## Claim C6 -/

/-- Claim C6: the excursion detector returns exactly `0` — an actual value —
for every constant-valued sequence and for every sequence with fewer than
2 readings. -/
theorem mage_constant_and_short :
    (∀ g : List ℚ, (∀ x ∈ g, ∀ y ∈ g, x = y) → calculate_mage g = 0) ∧
    (∀ g : List ℚ, g.length < 2 → calculate_mage g = 0) :=
  ⟨mage_allEq, mage_short⟩

/-- Witness for C6: a 4-reading constant sequence and a 1-reading sequence
both get MAGE 0. -/
theorem mage_constant_and_short_witness :
    calculate_mage [120, 120, 120, 120] = 0 ∧ calculate_mage [100] = 0 :=
  ⟨mage_constant_and_short.1 [120, 120, 120, 120] (by decide),
   mage_constant_and_short.2 [100] (by decide)⟩

/-! ## Claim C7 -/

/-- `np.std` of a single reading is 0. -/
lemma std_single : npStdR [100] = 0 := by
  rw [npStdR, show npVarQ [100] = 0 by norm_num [npVarQ, npMeanQ]]
  simp

/-- Claim C7 (amended): for the single reading (t0, 100) no failure occurs
and mean = median = 100, SD = 0, CV = 0 (the CV division `SD/mean*100`
succeeds because the mean is 100, not because of any explicit guard — the
code has none), and MAGE = 0.  The AGP percentile mapping is NOT empty: it
contains exactly one entry, for the reading's hour bucket, with all five
percentiles equal to 100. -/
theorem single_reading_metrics :
    (calculate_metrics [⟨⟨0,0,0⟩, 100⟩] ⟨70, 180⟩).meanGlucose = some 100 ∧
    (calculate_metrics [⟨⟨0,0,0⟩, 100⟩] ⟨70, 180⟩).medianGlucose = some 100 ∧
    (calculate_metrics [⟨⟨0,0,0⟩, 100⟩] ⟨70, 180⟩).sd = some 0 ∧
    (calculate_metrics [⟨⟨0,0,0⟩, 100⟩] ⟨70, 180⟩).cv = some 0 ∧
    (calculate_metrics [⟨⟨0,0,0⟩, 100⟩] ⟨70, 180⟩).mage = 0 ∧
    create_agp [⟨⟨0,0,0⟩, 100⟩] = [(0, [100, 100, 100, 100, 100])] := by
  refine ⟨?_, ?_, ?_, ?_, ?_, ?_⟩
  · simp [calculate_metrics, npMean, fdiv]
  · show npMedian [100] = some 100
    simp [npMedian, sortLe, insertLe]
  · show sdOf [100] = some 0
    rw [sdOf, if_neg (by decide), std_single]
  · show cvOf [100] = some 0
    rw [cvOf, if_neg (by decide), if_neg (by norm_num [npMeanQ]), std_single]
    norm_num
  · show calculate_mage [100] = 0
    exact mage_short [100] (by decide)
  · rw [create_agp, show List.range 24 =
      [0,1,2,3,4,5,6,7,8,9,10,11,12,13,14,15,16,17,18,19,20,21,22,23] from rfl]
    norm_num [List.filterMap, fracHour, npPercentile, sortLe, insertLe, List.filter]

/-- Counterexample for C7 as stated: the AGP percentile mapping of the
single reading (t0, 100) is not empty (the reading's own hour bucket gets
an entry). -/
theorem single_reading_cex :
    create_agp [⟨⟨0,0,0⟩, 100⟩] ≠ [] := by
  rw [create_agp, show List.range 24 =
    [0,1,2,3,4,5,6,7,8,9,10,11,12,13,14,15,16,17,18,19,20,21,22,23] from rfl]
  norm_num [List.filterMap, fracHour, npPercentile, sortLe, insertLe, List.filter]

/-! ## Claim C8 -/

/-- Claim C8: GMI (`3.31 + 0.02392 * mean`, as wired into the snapshot) is
monotonically increasing in the mean glucose, and GRI
(`3.0*v_low + 2.4*low + 1.6*v_high + 0.8*high`) is monotonically increasing
in each of its four band percentages independently. -/
theorem gmi_gri_monotone :
    (∀ rs : List Reading, ∀ tr : TargetRange,
      (calculate_metrics rs tr).gmi =
        (npMean (rs.map fun r => r.value)).map gmiFromMean) ∧
    (∀ m₁ m₂ : ℚ, m₁ ≤ m₂ → gmiFromMean m₁ ≤ gmiFromMean m₂) ∧
    (∀ a₁ a₂ b c d : ℚ, a₁ ≤ a₂ → calculate_gri a₁ b c d ≤ calculate_gri a₂ b c d) ∧
    (∀ a b₁ b₂ c d : ℚ, b₁ ≤ b₂ → calculate_gri a b₁ c d ≤ calculate_gri a b₂ c d) ∧
    (∀ a b c₁ c₂ d : ℚ, c₁ ≤ c₂ → calculate_gri a b c₁ d ≤ calculate_gri a b c₂ d) ∧
    (∀ a b c d₁ d₂ : ℚ, d₁ ≤ d₂ → calculate_gri a b c d₁ ≤ calculate_gri a b c d₂) := by
  refine ⟨fun rs tr => rfl, ?_, ?_, ?_, ?_, ?_⟩ <;>
    · intros
      simp only [gmiFromMean, calculate_gri]
      linarith

/-- Witness for C8: the monotonicity facts at concrete inputs. -/
theorem gmi_gri_monotone_witness :
    gmiFromMean 100 ≤ gmiFromMean 154 ∧
    calculate_gri 0 1 2 3 ≤ calculate_gri 5 1 2 3 ∧
    calculate_gri 0 1 2 3 ≤ calculate_gri 0 6 2 3 ∧
    calculate_gri 0 1 2 3 ≤ calculate_gri 0 1 7 3 ∧
    calculate_gri 0 1 2 3 ≤ calculate_gri 0 1 2 8 :=
  ⟨gmi_gri_monotone.2.1 100 154 (by decide),
   gmi_gri_monotone.2.2.1 0 5 1 2 3 (by decide),
   gmi_gri_monotone.2.2.2.1 0 1 6 2 3 (by decide),
   gmi_gri_monotone.2.2.2.2.1 0 1 2 7 3 (by decide),
   gmi_gri_monotone.2.2.2.2.2 0 1 2 3 8 (by decide)⟩

/-! ## Claim C9 -/

/-- Membership is preserved by sorted insertion. -/
lemma mem_insertLe {α} [LE α] [DecidableRel (α := α) (· ≤ ·)]
    (x a : α) (l : List α) : a ∈ insertLe x l ↔ a = x ∨ a ∈ l := by
  induction l with
  | nil => simp [insertLe]
  | cons y ys ih =>
    by_cases hxy : x ≤ y
    · simp [insertLe, hxy]
    · simp only [insertLe, if_neg hxy, List.mem_cons, ih]
      tauto

/-- Membership is preserved by the insertion sort. -/
lemma mem_sortLe {α} [LE α] [DecidableRel (α := α) (· ≤ ·)]
    (a : α) (l : List α) : a ∈ sortLe l ↔ a ∈ l := by
  induction l with
  | nil => simp [sortLe]
  | cons y ys ih =>
    simp only [sortLe, mem_insertLe, List.mem_cons, ih]

/-- Claim C9: the hourly-pattern mapping contains an entry for hour `h` only
if some reading has `dt.hour = h`, and the AGP percentile mapping contains
an entry for hour `h` only if some reading's fractional hour of day lies in
the bucket `[h, h+1)` — hours with zero contributing readings are omitted. -/
theorem no_empty_hour_buckets (rs : List Reading) (h : ℕ) :
    (∀ q : ℚ, (h, q) ∈ hourlyPattern rs → ∃ r ∈ rs, r.ts.hour = h) ∧
    (∀ ps : List ℚ, (h, ps) ∈ create_agp rs →
      ∃ r ∈ rs, (h : ℚ) ≤ fracHour r.ts ∧ fracHour r.ts < (h : ℚ) + 1) := by
  constructor
  · intro q hq
    rw [hourlyPattern, List.mem_map] at hq
    obtain ⟨h', hmem, heq⟩ := hq
    have hh : h' = h := congrArg Prod.fst heq
    subst hh
    rw [mem_sortLe, List.mem_dedup, List.mem_map] at hmem
    obtain ⟨r, hr, hhr⟩ := hmem
    exact ⟨r, hr, hhr⟩
  · intro ps hps
    rw [create_agp, List.mem_filterMap] at hps
    obtain ⟨h', _, heq⟩ := hps
    by_cases hlen : 0 < ((rs.filter fun r =>
        decide ((h' : ℚ) ≤ fracHour r.ts ∧ fracHour r.ts < (h' : ℚ) + 1)).map
        fun r => r.value).length
    · rw [if_pos hlen] at heq
      have hh : h' = h := congrArg Prod.fst (Option.some_injective _ heq)
      subst hh
      rw [List.length_map, List.length_pos] at hlen
      obtain ⟨r, hr⟩ := List.exists_mem_of_ne_nil _ hlen
      rw [List.mem_filter, decide_eq_true_eq] at hr
      exact ⟨r, hr.1, hr.2⟩
    · rw [if_neg hlen] at heq
      exact absurd heq (by simp)

/-- Witness for C9: the single reading at hour 0 indeed contributes an entry
to both mappings, and the theorem recovers it. -/
theorem no_empty_hour_buckets_witness :
    (∃ r ∈ [(⟨⟨0, 0, 0⟩, 100⟩ : Reading)], r.ts.hour = 0) ∧
    (∃ r ∈ [(⟨⟨0, 0, 0⟩, 100⟩ : Reading)],
      ((0 : ℕ) : ℚ) ≤ fracHour r.ts ∧ fracHour r.ts < ((0 : ℕ) : ℚ) + 1) :=
  ⟨(no_empty_hour_buckets [⟨⟨0, 0, 0⟩, 100⟩] 0).1 100
    (by simp [hourlyPattern, sortLe, insertLe, List.filter]),
   (no_empty_hour_buckets [⟨⟨0, 0, 0⟩, 100⟩] 0).2 [100, 100, 100, 100, 100]
    (by
      rw [create_agp, show List.range 24 =
        [0,1,2,3,4,5,6,7,8,9,10,11,12,13,14,15,16,17,18,19,20,21,22,23] from rfl]
      norm_num [List.filterMap, fracHour, npPercentile, sortLe, insertLe, List.filter])⟩

/-! ## Claim C10 -/

/-- Claim C10: on a strictly monotone sequence (entirely rising or entirely
falling) the excursion detector returns MAGE = 0 regardless of the total
amplitude: the current direction is fixed by the first significant delta
and never reverses, so the in-progress excursion is never completed and
never recorded. -/
theorem mage_strict_monotone_zero (g : List ℚ)
    (hg : List.Chain' (· < ·) g ∨ List.Chain' (· > ·) g) :
    calculate_mage g = 0 := by
  have key : ∀ σ : ℤ, (σ = 1 ∨ σ = -1) →
      (∀ i, 1 ≤ i → i < g.length →
        0 < (σ : ℚ) * (g.getD i 0 - g.getD (i - 1) 0)) →
      calculate_mage g = 0 := by
    intro σ hσ hdiff
    rw [calculate_mage, mageScan]
    rw [(mageScan_mono_aux g (npStdR g) σ hσ hdiff (List.range' 1 (g.length - 1))
      (fun i hi => by
        have := List.mem_range'_1.mp hi
        constructor
        · exact this.1
        · omega)
      ⟨0, 0, []⟩ (Or.inl rfl)).1]
    rfl
  rcases hg with hg | hg
  · refine key 1 (Or.inl rfl) ?_
    intro i hi1 hi2
    have hlt : g.getD (i - 1) 0 < g.getD i 0 := by
      have h := List.chain'_iff_get.mp hg (i - 1) (by omega)
      rw [List.getD_eq_getElem _ _ (by omega : i - 1 < g.length),
        List.getD_eq_getElem _ _ hi2]
      simpa [List.get_eq_getElem, Nat.sub_add_cancel hi1] using h
    push_cast
    linarith
  · refine key (-1) (Or.inr rfl) ?_
    intro i hi1 hi2
    have hlt : g.getD i 0 < g.getD (i - 1) 0 := by
      have h := List.chain'_iff_get.mp hg (i - 1) (by omega)
      rw [List.getD_eq_getElem _ _ (by omega : i - 1 < g.length),
        List.getD_eq_getElem _ _ hi2]
      simpa [List.get_eq_getElem, Nat.sub_add_cancel hi1] using h
    push_cast
    linarith

/-- Witness for C10: a strictly rising sequence with total amplitude 360
still gets MAGE 0. -/
theorem mage_strict_monotone_zero_witness :
    calculate_mage [40, 120, 250, 400] = 0 :=
  mage_strict_monotone_zero [40, 120, 250, 400]
    (Or.inl (List.Chain'.cons (by decide)
      (List.Chain'.cons (by decide) (List.chain'_pair.mpr (by decide)))))
